import Mathlib

/-!
Verification of the template-resolution, file-materialization and source-injection
pipeline of the `create-bun-monorepo` scaffolding tool.

Strings from the TypeScript source are modelled as `List Char` (`Str`); the few
JavaScript string/regex primitives the code uses (`String.prototype.replace` with a
string or literal-regex pattern, `String.prototype.includes`, `split`, `trim`,
greedy/lazy regex matching for the two bracket-notation patterns and the
`LAST_IMPORT_REGEX` of the ORM injector) are given executable structural
definitions below, each annotated with the source construct it embeds.
File-system effects (directory walks, `readFile`/`writeFile`, the `access` check)
are modelled by passing file contents and existence flags explicitly; a returned
`Option`/`Bool` records whether a write happens.
-/

namespace CBM

/-- Strings of the embedded program: JavaScript strings as lists of characters. -/
abbrev Str := List Char

/-- Decidable equality of `Except` results, so that concrete runs of the embedded
fallible operations can be checked by `decide`. -/
instance instDecEqExcept [DecidableEq ε] [DecidableEq α] : DecidableEq (Except ε α) := fun x y =>
  match x, y with
  | Except.error a, Except.error b =>
    if h : a = b then isTrue (by rw [h]) else isFalse (fun hc => by cases hc; exact h rfl)
  | Except.ok a, Except.ok b =>
    if h : a = b then isTrue (by rw [h]) else isFalse (fun hc => by cases hc; exact h rfl)
  | Except.error _, Except.ok _ => isFalse (fun hc => by cases hc)
  | Except.ok _, Except.error _ => isFalse (fun hc => by cases hc)

/-- Test whether `pat` is a prefix of `s` (used to model anchored regex/literal matching). -/
def startsWithL : Str → Str → Bool
  | [], _ => true
  | _ :: _, [] => false
  | p :: ps, c :: cs => p = c && startsWithL ps cs

/-- JavaScript `s.includes(pat)`: `pat` occurs as a contiguous substring of `s`. -/
def containsSub : Str → Str → Bool
  | [], pat => pat.isEmpty
  | c :: cs, pat => startsWithL pat (c :: cs) || containsSub cs pat

/-- Fuel-driven worker for `replaceFirstSub`; the fuel is an upper bound on the
length of the scanned string, so the recursion is structural and kernel-reducible. -/
def replaceFirstAux : Nat → Str → Str → Str → Str
  | 0, s, _, _ => s
  | _ + 1, [], pat, rep => if pat.isEmpty then rep else []
  | n + 1, c :: cs, pat, rep =>
    if pat.isEmpty then rep ++ c :: cs
    else if startsWithL pat (c :: cs) then rep ++ (c :: cs).drop pat.length
    else c :: replaceFirstAux n cs pat rep

/-- JavaScript `s.replace(pat, rep)` for a string pattern or a non-global literal
regex: replace the first occurrence of `pat` (with `s.replace("", rep) = rep ++ s`,
as in JavaScript). -/
def replaceFirstSub (s pat rep : Str) : Str :=
  replaceFirstAux (s.length + 1) s pat rep

/-- ECMAScript `GetSubstitution` for a string replacement value against a regex
with no capture groups: scanning the value, `$$` yields a dollar, `$&` the
matched text, a dollar followed by a backquote the part of the subject before
the match, a dollar followed by a straight quote the part after the match; any
other dollar (including `$n` and `$<`, since the constructed pattern has no
capture groups) passes through literally, as does every other character. -/
def expandRep (matched before after : Str) : Str → Str
  | [] => []
  | [c] => [c]
  | c :: c2 :: rest2 =>
    if c = '$' then
      if c2 = '$' then '$' :: expandRep matched before after rest2
      else if c2 = '&' then matched ++ expandRep matched before after rest2
      else if c2 = Char.ofNat 96 then before ++ expandRep matched before after rest2
      else if c2 = Char.ofNat 39 then after ++ expandRep matched before after rest2
      else '$' :: expandRep matched before after (c2 :: rest2)
    else c :: expandRep matched before after (c2 :: rest2)

/-- Fuel-driven worker for `replaceAllJs`; `consumed` is the already-scanned
prefix of the subject string, the before-context every match hands to
`expandRep` (the after-context is the unscanned remainder, both taken from the
original subject of the `replace` call, as the specification prescribes). -/
def replaceAllJsAux : Nat → Str → Str → Str → Str → Str
  | 0, s, _, _, _ => s
  | _ + 1, [], _, _, _ => []
  | n + 1, c :: cs, pat, rep, consumed =>
    if !pat.isEmpty && startsWithL pat (c :: cs) then
      expandRep pat consumed ((c :: cs).drop pat.length) rep
        ++ replaceAllJsAux n ((c :: cs).drop pat.length) pat rep (consumed ++ pat)
    else c :: replaceAllJsAux n cs pat rep (consumed ++ [c])

/-- JavaScript `s.replace(regex-with-g-flag, rep)` for a pattern matching the
literal `pat`: every non-overlapping, left-to-right occurrence of `pat` is
replaced by the `GetSubstitution` expansion of the replacement string `rep`
(a `rep` without dollars is inserted verbatim). -/
def replaceAllJs (s pat rep : Str) : Str :=
  replaceAllJsAux (s.length + 1) s pat rep []

/-- Fuel-driven worker for `splitOnSub`. -/
def splitOnAux : Nat → Str → Str → List Str
  | 0, s, _ => [s]
  | _ + 1, [], _ => [[]]
  | n + 1, c :: cs, pat =>
    if !pat.isEmpty && startsWithL pat (c :: cs) then
      [] :: splitOnAux n ((c :: cs).drop pat.length) pat
    else (splitOnAux n cs pat).modifyHead (fun p => c :: p)

/-- Greedy decomposition of `s` at the occurrences of `pat`: the pieces between the
occurrences that `replaceAllJs` rewrites, in order. -/
def splitOnSub (s pat : Str) : List Str :=
  splitOnAux (s.length + 1) s pat

/-- Join a list of pieces with the separator `sep` between consecutive pieces. -/
def joinWith (sep : Str) : List Str → Str
  | [] => []
  | [x] => x
  | x :: y :: xs => x ++ sep ++ joinWith sep (y :: xs)

/-- JavaScript `s.split(sep)` for a single-character separator. -/
def splitOnChar (sep : Char) : Str → List Str
  | [] => [[]]
  | c :: cs =>
    if c = sep then [] :: splitOnChar sep cs
    else (splitOnChar sep cs).modifyHead (fun p => c :: p)

/-- Characters matched by the JavaScript `\s` class and removed by `String.prototype.trim`. -/
def isJsSpace (c : Char) : Bool :=
  c ∈ [' ', '\t', '\n', '\r', Char.ofNat 0x0b, Char.ofNat 0x0c, Char.ofNat 0xa0,
    Char.ofNat 0x1680, Char.ofNat 0x2000, Char.ofNat 0x2001, Char.ofNat 0x2002,
    Char.ofNat 0x2003, Char.ofNat 0x2004, Char.ofNat 0x2005, Char.ofNat 0x2006,
    Char.ofNat 0x2007, Char.ofNat 0x2008, Char.ofNat 0x2009, Char.ofNat 0x200a,
    Char.ofNat 0x2028, Char.ofNat 0x2029, Char.ofNat 0x202f, Char.ofNat 0x205f,
    Char.ofNat 0x3000, Char.ofNat 0xfeff]

/-- JavaScript `s.trim()`. -/
def trimL (s : Str) : Str :=
  ((s.dropWhile isJsSpace).reverse.dropWhile isJsSpace).reverse

/-- Registry entry for one template (`src/templates.ts`, interface `TemplateInfo`);
`path = none` is the on-disk-asset-free "blank" case. -/
structure TemplateInfo where
  displayName : String
  description : String
  path : Option String
deriving DecidableEq, Repr

/-- Registry entry for one category (`src/templates.ts`, interface `CategoryInfo`);
the template map is an association list in object-literal insertion order, which is
the order `Object.entries` iterates in. -/
structure CategoryInfo where
  displayName : String
  description : String
  templates : List (String × TemplateInfo)
deriving DecidableEq, Repr

/-- The registry shape (`src/templates.ts`, interface `TemplatesConfig`). -/
structure TemplatesConfig where
  categories : List (String × CategoryInfo)
deriving DecidableEq, Repr

/-- Association-list lookup modelling JavaScript object property access
`obj[key]` (keys in an object literal are unique). -/
def lookupKey : List (String × α) → String → Option α
  | [], _ => Option.none
  | (k, v) :: rest, key => if k = key then some v else lookupKey rest key

/-- The static template registry `TEMPLATES_CONFIG` of `src/templates.ts`. -/
def TEMPLATES_CONFIG : TemplatesConfig :=
  { categories :=
    [ ("blank",
       { displayName := "Blank Template"
         description := "Empty template with basic TypeScript setup"
         templates :=
           [ ("blank",
              { displayName := "Blank"
                description := "Basic TypeScript project with minimal setup"
                path := Option.none }) ] })
    , ("frontend",
       { displayName := "Frontend Applications"
         description := "Web frontend applications and frameworks"
         templates :=
           [ ("react-vite",
              { displayName := "React + Vite"
                description := "React application with Vite bundler and HMR"
                path := some "apps/react-vite" })
           , ("react-webpack",
              { displayName := "React + Webpack"
                description := "React application with Webpack bundler"
                path := some "apps/react-webpack" })
           , ("react-vike",
              { displayName := "React + Vike"
                description := "Full-stack React framework with Vike for SSR/SPA"
                path := some "apps/react-vike" })
           , ("nextjs",
              { displayName := "Next.js"
                description := "Full-stack React framework with SSR/SSG"
                path := some "apps/nextjs" })
           , ("nextjs-solito",
              { displayName := "Next.js + Solito"
                description := "Next.js with Solito for universal React Native"
                path := some "apps/nextjs-solito" })
           , ("react-router",
              { displayName := "React Router v7 (previously Remix)"
                description := "CSR + SSR React framework with nested routing"
                path := some "apps/react-router" }) ] })
    , ("mobile",
       { displayName := "Mobile Applications"
         description := "React Native and mobile development"
         templates :=
           [ ("react-native-expo",
              { displayName := "React Native + Expo"
                description := "React Native with Expo for rapid development"
                path := some "apps/react-native-expo" })
           , ("react-native-bare",
              { displayName := "React Native Bare"
                description := "Bare React Native setup without Expo"
                path := some "apps/react-native-bare" }) ] })
    , ("backend",
       { displayName := "Backend Services"
         description := "API servers and backend services"
         templates :=
           [ ("express",
              { displayName := "Express.js"
                description := "Fast, unopinionated web framework for Node.js"
                path := some "apps/express" })
           , ("hono",
              { displayName := "Hono"
                description := "Ultrafast web framework for Cloudflare Workers, Deno, and Bun"
                path := some "apps/hono" })
           , ("nestjs",
              { displayName := "NestJS"
                description := "Progressive Node.js framework for scalable server-side applications"
                path := some "apps/nestjs" }) ] })
    , ("packages",
       { displayName := "Shared Packages"
         description := "Reusable libraries and utilities"
         templates :=
           [ ("utils",
              { displayName := "Utilities"
                description := "Common utility functions for objects, arrays, strings, and dates"
                path := some "packages/utils" })
           , ("ui",
              { displayName := "UI Components"
                description := "Reusable UI components with Tailwind CSS and Radix UI"
                path := some "packages/ui" })
           , ("schemas",
              { displayName := "Schemas"
                description := "Zod schemas that can be used for backend data validation and frontend forms"
                path := some "packages/schemas" })
           , ("hooks",
              { displayName := "React Hooks"
                description := "Custom React hooks reusable across React and React Native apps"
                path := some "packages/hooks" })
           , ("ui-native",
              { displayName := "UI Native Components"
                description := "Reusable React Native components for mobil apps & web apps with a RN/Expo adapter."
                path := some "packages/ui-native" })
           , ("db",
              { displayName := "Database"
                description := "Database client and schemas with ORM support"
                path := some "packages/db" }) ] }) ] }

/-- The two values of the `type: "apps" | "packages"` parameter. -/
inductive TKind where
  | apps
  | packages
deriving DecidableEq, Repr

/-- Category loop of `findTemplateInConfig` (`src/lib/shared-setup.ts`): walk the
categories in registry order, skipping `packages` for apps and everything except
`packages` for packages, and return the key of the first category whose template
map has the requested key. -/
def findTemplateInCats : List (String × CategoryInfo) → String → TKind → Option String
  | [], _, _ => Option.none
  | (ck, cat) :: rest, tn, ty =>
    if ty = TKind.apps ∧ ck = "packages" then findTemplateInCats rest tn ty
    else if ty = TKind.packages ∧ ck ≠ "packages" then findTemplateInCats rest tn ty
    else if (lookupKey cat.templates tn).isSome then some ck
    else findTemplateInCats rest tn ty

/-- The resolver `findTemplateInConfig` of `src/lib/shared-setup.ts`: the result
`{category}` is modelled as `some category`, the `null` failure as `none`;
the key `"blank"` is special-cased before any registry search. -/
def findTemplateInConfig (config : TemplatesConfig) (templateName : String) (ty : TKind) :
    Option String :=
  if templateName = "blank" then some "blank"
  else findTemplateInCats config.categories templateName ty

/-- Key-collecting loop of `getAvailableTemplates` (`src/lib/shared-setup.ts`). -/
def availableInCats : List (String × CategoryInfo) → TKind → List String
  | [], _ => []
  | (ck, cat) :: rest, ty =>
    if ty = TKind.apps ∧ ck = "packages" then availableInCats rest ty
    else if ty = TKind.packages ∧ ck ≠ "packages" then availableInCats rest ty
    else cat.templates.map Prod.fst ++ availableInCats rest ty

/-- The enumeration `getAvailableTemplates` of `src/lib/shared-setup.ts`; the
key `"blank"` is always pushed at the end. -/
def getAvailableTemplates (config : TemplatesConfig) (ty : TKind) : List String :=
  availableInCats config.categories ty ++ ["blank"]

/-- Matching of `APP_TEMPLATE_REGEX` and `PACKAGE_TEMPLATE_REGEX` (both are the
anchored pattern of one mandatory group of non-bracket characters followed by an
optional bracketed group, `src/create-command.ts`): group 1 is the maximal
nonempty run of characters other than an opening bracket; the optional group
matches exactly when the remainder is an opening bracket, a nonempty run free of
closing brackets, and a final closing bracket at the end of the input.
`none` models a failed match. -/
def appTemplateRegexMatch (s : Str) : Option (Str × Option Str) :=
  let n := s.takeWhile (fun c => c ≠ '[')
  let rest := s.dropWhile (fun c => c ≠ '[')
  if n.isEmpty then Option.none
  else
    match rest with
    | [] => some (n, Option.none)
    | c :: r =>
      if c = '[' then
        match r.getLast? with
        | some l =>
          if l = ']' then
            if r.dropLast ≠ [] ∧ ']' ∉ r.dropLast then some (n, some r.dropLast)
            else Option.none
          else Option.none
        | Option.none => Option.none
      else Option.none

/-- Attempt of `BRACKET_PATTERN` (`src/index.ts`) with the greedy leading group
set to `s.take i`: succeeds when position `i` holds an opening bracket, the final
character of `s` is a closing bracket, and the characters strictly between them
are nonempty and free of closing brackets. -/
def bracketAt (s : Str) (i : Nat) : Option (Str × Str) :=
  match s.drop i with
  | [] => Option.none
  | c :: r =>
    if c = '[' then
      match r.getLast? with
      | some l =>
        if l = ']' then
          if r.dropLast ≠ [] ∧ ']' ∉ r.dropLast then some (s.take i, r.dropLast)
          else Option.none
        else Option.none
      | Option.none => Option.none
    else Option.none

/-- Backtracking scan for `BRACKET_PATTERN`: the greedy `.*` group tries the
longest leading prefix first, so split positions are tried in decreasing order. -/
def bpScan (s : Str) : Nat → Option (Str × Str)
  | 0 => bracketAt s 0
  | i + 1 =>
    match bracketAt s (i + 1) with
    | some r => some r
    | Option.none => bpScan s i

/-- Matching of `BRACKET_PATTERN` (`src/index.ts`): an optional greedy prefix, an
opening bracket, a nonempty group free of closing brackets, and a closing bracket
anchored at the end; the groups `(namePrefix, template)` of the first
(backtracking-greedy) match are returned, `none` on no match. -/
def bracketPatternMatch (s : Str) : Option (Str × Str) :=
  bpScan s s.length

/-- The parser `parseNameAndTemplate` of `src/index.ts` (the `add`-command
resolver): on a bracket match the name defaults to the template when the prefix
is empty; an empty resulting name is the thrown error, modelled as `none`;
without a bracket match the trimmed input is the name and there is no template. -/
def parseNameAndTemplate (input : Str) : Option (Str × Option Str) :=
  match bracketPatternMatch input with
  | some (namePre, template) =>
    let nm := if namePre.isEmpty then template else namePre
    if nm.isEmpty then Option.none
    else some (trimL nm, some (trimL template))
  | Option.none => some (trimL input, Option.none)

/-- Failures of the per-input template resolution in `promptUser`
(`src/create-command.ts`): a failed regex match, an empty captured name, or an
unknown bracket template; the last carries the template spec and the enumerated
available keys interpolated into the thrown error message. -/
inductive ResolveError where
  | invalidFormat
  | emptyName
  | templateNotFound (tspec : String) (available : List String)
deriving DecidableEq, Repr

/-- Per-input resolution of the non-interactive `create` path (`promptUser`,
`src/create-command.ts`): match the bracket regex, reject a failed match or an
empty name, fall back to the synthetic blank template when no bracket template is
given, and otherwise search the registry with `findTemplateInConfig`, throwing
the enumerating error on a miss. -/
def resolveCreateInput (config : TemplatesConfig) (ty : TKind) (input : Str) :
    Except ResolveError (Str × String × String) :=
  match appTemplateRegexMatch input with
  | Option.none => Except.error ResolveError.invalidFormat
  | some (nm, Option.none) =>
    if nm.isEmpty then Except.error ResolveError.emptyName
    else Except.ok (nm, "blank", "blank")
  | some (nm, some tspec) =>
    if nm.isEmpty then Except.error ResolveError.emptyName
    else
      match findTemplateInConfig config ⟨tspec⟩ ty with
      | some cat => Except.ok (nm, ⟨tspec⟩, cat)
      | Option.none =>
        Except.error (ResolveError.templateNotFound ⟨tspec⟩ (getAvailableTemplates config ty))

/-- Drizzle route block injected into Express entrypoints (`src/injections/orm-injection.ts`). -/
def expressRoutesDrizzle : String :=
  "// ORM Test endpoint\napp.get(\"/orm-test\", (_req, res) => \x7b\n\tres.json(\x7b message: \"orm-test-endpoint\", orm: \"drizzle\" \x7d);\n\x7d);\n\n// User routes\napp.get(\"/api/users\", async (_req, res) => \x7b\n\ttry \x7b\n\t\tconst allUsers = await db.select().from(users);\n\t\tres.json(allUsers);\n\t\x7d catch (_error) \x7b\n\t\tres.status(500).json(\x7b error: \"Failed to fetch users\" \x7d);\n\t\x7d\n\x7d);\n\napp.post(\"/api/users\", async (req, res) => \x7b\n\ttry \x7b\n\t\tconst newUser: NewUser = req.body;\n\t\tconst user = await db.insert(users).values(newUser).returning();\n\t\tres.status(201).json(user[0]);\n\t\x7d catch (_error) \x7b\n\t\tres.status(500).json(\x7b error: \"Failed to create user\" \x7d);\n\t\x7d\n\x7d);\n\napp.get(\"/api/users/:id\", async (req, res) => \x7b\n\ttry \x7b\n\t\tconst user = await db.select().from(users).where(eq(users.id, req.params.id));\n\t\tif (user.length === 0) \x7b\n\t\t\treturn res.status(404).json(\x7b error: \"User not found\" \x7d);\n\t\t\x7d\n\t\tres.json(user[0]);\n\t\x7d catch (_error) \x7b\n\t\tres.status(500).json(\x7b error: \"Failed to fetch user\" \x7d);\n\t\x7d\n\x7d);"

/-- Prisma route block injected into Express entrypoints (`src/injections/orm-injection.ts`). -/
def expressRoutesPrisma : String :=
  "// ORM Test endpoint\napp.get(\"/orm-test\", (_req, res) => \x7b\n\tres.json(\x7b message: \"orm-test-endpoint\", orm: \"prisma\" \x7d);\n\x7d);\n\n// User routes\napp.get(\"/api/users\", async (_req, res) => \x7b\n\ttry \x7b\n\t\tconst users = await db.user.findMany();\n\t\tres.json(users);\n\t\x7d catch (_error) \x7b\n\t\tres.status(500).json(\x7b error: \"Failed to fetch users\" \x7d);\n\t\x7d\n\x7d);\n\napp.post(\"/api/users\", async (req, res) => \x7b\n\ttry \x7b\n\t\tconst user = await db.user.create(\x7b data: req.body \x7d);\n\t\tres.status(201).json(user);\n\t\x7d catch (_error) \x7b\n\t\tres.status(500).json(\x7b error: \"Failed to create user\" \x7d);\n\t\x7d\n\x7d);\n\napp.get(\"/api/users/:id\", async (req, res) => \x7b\n\ttry \x7b\n\t\tconst user = await db.user.findUnique(\x7b where: \x7b id: req.params.id \x7d \x7d);\n\t\tif (!user) \x7b\n\t\t\treturn res.status(404).json(\x7b error: \"User not found\" \x7d);\n\t\t\x7d\n\t\tres.json(user);\n\t\x7d catch (_error) \x7b\n\t\tres.status(500).json(\x7b error: \"Failed to fetch user\" \x7d);\n\t\x7d\n\x7d);"

/-- Drizzle route block injected into Hono entrypoints (`src/injections/orm-injection.ts`). -/
def honoRoutesDrizzle : String :=
  "// ORM Test endpoint\napp.get(\"/orm-test\", (c) => \x7b\n\treturn c.json(\x7b message: \"orm-test-endpoint\", orm: \"drizzle\" \x7d);\n\x7d);\n\n// User routes\napp.get(\"/api/users\", async (c) => \x7b\n\ttry \x7b\n\t\tconst allUsers = await db.select().from(users);\n\t\treturn c.json(allUsers);\n\t\x7d catch (_error) \x7b\n\t\treturn c.json(\x7b error: \"Failed to fetch users\" \x7d, 500);\n\t\x7d\n\x7d);\n\napp.post(\"/api/users\", async (c) => \x7b\n\ttry \x7b\n\t\tconst newUser: NewUser = await c.req.json();\n\t\tconst user = await db.insert(users).values(newUser).returning();\n\t\treturn c.json(user[0], 201);\n\t\x7d catch (_error) \x7b\n\t\treturn c.json(\x7b error: \"Failed to create user\" \x7d, 500);\n\t\x7d\n\x7d);\n\napp.get(\"/api/users/:id\", async (c) => \x7b\n\ttry \x7b\n\t\tconst id = c.req.param(\"id\");\n\t\tconst user = await db.select().from(users).where(eq(users.id, id));\n\t\tif (user.length === 0) \x7b\n\t\t\treturn c.json(\x7b error: \"User not found\" \x7d, 404);\n\t\t\x7d\n\t\treturn c.json(user[0]);\n\t\x7d catch (_error) \x7b\n\t\treturn c.json(\x7b error: \"Failed to fetch user\" \x7d, 500);\n\t\x7d\n\x7d);"

/-- Prisma route block injected into Hono entrypoints (`src/injections/orm-injection.ts`). -/
def honoRoutesPrisma : String :=
  "// ORM Test endpoint\napp.get(\"/orm-test\", (c) => \x7b\n\treturn c.json(\x7b message: \"orm-test-endpoint\", orm: \"prisma\" \x7d);\n\x7d);\n\n// User routes\napp.get(\"/api/users\", async (c) => \x7b\n\ttry \x7b\n\t\tconst users = await db.user.findMany();\n\t\treturn c.json(users);\n\t\x7d catch (_error) \x7b\n\t\treturn c.json(\x7b error: \"Failed to fetch users\" \x7d, 500);\n\t\x7d\n\x7d);\n\napp.post(\"/api/users\", async (c) => \x7b\n\ttry \x7b\n\t\tconst userData = await c.req.json();\n\t\tconst user = await db.user.create(\x7b data: userData \x7d);\n\t\treturn c.json(user, 201);\n\t\x7d catch (_error) \x7b\n\t\treturn c.json(\x7b error: \"Failed to create user\" \x7d, 500);\n\t\x7d\n\x7d);\n\napp.get(\"/api/users/:id\", async (c) => \x7b\n\ttry \x7b\n\t\tconst id = c.req.param(\"id\");\n\t\tconst user = await db.user.findUnique(\x7b where: \x7b id \x7d \x7d);\n\t\tif (!user) \x7b\n\t\t\treturn c.json(\x7b error: \"User not found\" \x7d, 404);\n\t\t\x7d\n\t\treturn c.json(user);\n\t\x7d catch (_error) \x7b\n\t\treturn c.json(\x7b error: \"Failed to fetch user\" \x7d, 500);\n\t\x7d\n\x7d);"

/-- Content of the generated Express entrypoint `templates/apps/express/src/index.ts`. -/
def expressIndexContent : String :=
  "import cors from \"cors\";\nimport express from \"express\";\nimport helmet from \"helmet\";\nimport morgan from \"morgan\";\n\nconst app = express();\nconst port = process.env.PORT || 3100;\n\n// Middleware\napp.use(helmet());\napp.use(cors());\napp.use(morgan(\"combined\"));\napp.use(express.json());\napp.use(express.urlencoded(\x7b extended: true \x7d));\n\n// Routes\napp.get(\"/\", (_req, res) => \x7b\n\tres.json(\x7b\n\t\tmessage: \"Hello from Express!\",\n\t\ttimestamp: new Date().toISOString(),\n\t\tversion: \"1.0.0\",\n\t\x7d);\n\x7d);\n\napp.get(\"/health\", (_req, res) => \x7b\n\tres.json(\x7b\n\t\tstatus: \"ok\",\n\t\tservice: \"express\",\n\t\ttimestamp: new Date().toISOString(),\n\t\x7d);\n\x7d);\n\napp.get(\"/api/users\", (_req, res) => \x7b\n\tres.json(\x7b\n\t\tusers: [\n\t\t\t\x7b id: 1, name: \"John Doe\", email: \"john@example.com\" \x7d,\n\t\t\t\x7b id: 2, name: \"Jane Smith\", email: \"jane@example.com\" \x7d,\n\t\t],\n\t\x7d);\n\x7d);\n\napp.post(\"/api/users\", (req, res) => \x7b\n\tconst \x7b name, email \x7d = req.body;\n\n\t// Basic validation\n\tif (!name || !email) \x7b\n\t\treturn res.status(400).json(\x7b error: \"Name and email are required\" \x7d);\n\t\x7d\n\n\tres.status(201).json(\x7b\n\t\tmessage: \"User created successfully\",\n\t\tuser: \x7b\n\t\t\tid: Date.now(),\n\t\t\tname,\n\t\t\temail,\n\t\t\x7d,\n\t\x7d);\n\x7d);\n\n// Error handling middleware\napp.use((err: Error, _req: express.Request, res: express.Response, _next: express.NextFunction) => \x7b\n\tconsole.error(err.stack);\n\tres.status(500).json(\x7b error: \"Something went wrong!\" \x7d);\n\x7d);\n\napp.listen(port, () => \x7b\n\tconsole.log(`🚀 Express is running on port $\x7bport\x7d`);\n\x7d);\n"


/-- Text-file extension allow-list of `processTemplateFile` (`src/utils/file.ts`). -/
def textExtensions : List Str :=
  ["json".data, "js".data, "ts".data, "tsx".data, "jsx".data, "md".data, "txt".data,
    "yml".data, "yaml".data, "xml".data, "html".data, "css".data, "scss".data]

/-- Extension extraction of `processTemplateFile` (`src/utils/file.ts`):
`filePath.split(".").pop()?.toLowerCase()`. -/
def extOf (path : Str) : Str :=
  ((splitOnChar '.' path).getLastD []).map Char.toLower

/-- Allow-list gate of `processTemplateFile` (`src/utils/file.ts`): skip unless the
extension is nonempty and allow-listed. -/
def shouldProcessFile (path : Str) : Bool :=
  !(extOf path).isEmpty && textExtensions.contains (extOf path)

/-- The literal placeholder token of a replacement key: two opening braces, the
key, two closing braces. -/
def tokenL (key : String) : Str :=
  Char.ofNat 123 :: Char.ofNat 123 :: key.data ++ [Char.ofNat 125, Char.ofNat 125]

/-- Keys whose characters carry no meaning inside a regular expression, so the
pattern `processTemplateFile` builds by splicing the key unescaped between the
brace escapes (`new RegExp` of the token with the `g` flag) matches exactly the
literal token and its construction cannot throw. The program only ever passes
the keys `appName` and `name`, which qualify; the C4 theorems carry this
predicate as a hypothesis because the embedding models the constructed pattern
as the literal token. -/
def regexLiteralKey (k : String) : Bool :=
  k.data.all (fun c => c.isAlphanum || c = '_' || c = '-')

/-- Body of the replacement loop of `processTemplateFile` (`src/utils/file.ts`):
one `[placeholder, value]` entry applied to the accumulated (content,
`hasReplacements`) pair. The guard is the literal `content.includes` test; when
it holds, `content.replace(regex, value)` runs — a global replace whose
replacement string is expanded per the JavaScript substitution rules
(`replaceAllJs`), and the written-back flag is set. The regex is modelled as the
literal token, exact for `regexLiteralKey` keys. -/
def substStep (acc : Str × Bool) (kv : String × String) : Str × Bool :=
  if containsSub acc.1 (tokenL kv.1) then (replaceAllJs acc.1 (tokenL kv.1) kv.2.data, true)
  else acc

/-- Replacement loop of `processTemplateFile` (`src/utils/file.ts`): the entries
of the replacement map in `Object.entries` order, folded over the content. -/
def substituteContent (reps : List (String × String)) (content : Str) : Str × Bool :=
  reps.foldl substStep (content, false)

/-- The per-file step `processTemplateFile` of `src/utils/file.ts`: returns the new
content and whether the file is written back (`hasReplacements`); non-allow-listed
files return unchanged with no write. -/
def processTemplateFile (reps : List (String × String)) (path : Str) (content : Str) :
    Str × Bool :=
  if shouldProcessFile path then substituteContent reps content else (content, false)

/-- The walk `processTemplateReplacements` of `src/utils/file.ts`, with the
directory tree flattened to the list of (path, content) pairs the recursive
`processDirectory` visits; every file is visited exactly once. -/
def processTemplateReplacements (files : List (Str × Str)) (reps : List (String × String)) :
    List (Str × Str × Bool) :=
  files.map (fun pc => (pc.1, processTemplateFile reps pc.1 pc.2))

/-- The copy filter of `copyTemplateFiles` (`src/lib/shared-setup.ts`) applied to
the path `rel` of an entry relative to the template root: the entry is copied
exactly when `rel` contains neither "node_modules" nor "dist" as a substring. -/
def copyFilterRel (rel : Str) : Bool :=
  !containsSub rel "node_modules".data && !containsSub rel "dist".data

/-- The full copy filter of `copyTemplateFiles`: the relative path is obtained by
deleting the first occurrence of the template root from the absolute source path
(JavaScript `src.replace(templatePath, "")`). -/
def copyFilter (templatePath src : Str) : Bool :=
  copyFilterRel (replaceFirstSub src templatePath [])

/-- Framework groups of `src/templates.ts`. -/
def MOBILE_FRAMEWORKS : List String := ["react-native-expo", "react-native-bare"]

/-- Full-stack frameworks of `src/templates.ts` (frontend-category frameworks that
can use ORMs). -/
def FULLSTACK_FRAMEWORKS : List String := ["nextjs", "nextjs-solito", "react-router", "react-vike"]

/-- Backend frameworks of `src/templates.ts`. -/
def BACKEND_FRAMEWORKS : List String := ["express", "hono", "nestjs"]

/-- Frameworks eligible for ORM endpoint injection (`src/templates.ts`). -/
def ORM_FRAMEWORKS : List String := FULLSTACK_FRAMEWORKS ++ BACKEND_FRAMEWORKS

/-- Native frameworks (`src/templates.ts`). -/
def NATIVE_FRAMEWORKS : List String := MOBILE_FRAMEWORKS ++ ["nextjs-solito"]

/-- React-flavored frameworks (`src/templates.ts`). -/
def REACT_FRAMEWORKS : List String :=
  MOBILE_FRAMEWORKS ++ FULLSTACK_FRAMEWORKS ++ ["react-vite", "react-webpack"]

/-- The package filter of `createAppWithProcessing` (`src/lib/shared-setup.ts`)
that selects which requested packages become workspace dependencies of an app,
translated condition for condition: the three sequential `if` statements with
their original (short-circuit and precedence) structure. -/
def appDependencyFilter (appTemplate pkgTemplate : String) : Bool :=
  if appTemplate ∈ NATIVE_FRAMEWORKS ∧ pkgTemplate = "ui-native" then true
  else if (appTemplate ∈ REACT_FRAMEWORKS ∧ pkgTemplate = "ui") ∨ pkgTemplate = "hooks" then true
  else if pkgTemplate = "utils" ∨ pkgTemplate = "schemas" then true
  else false

/-- A requested package (`PackageTemplate` of `src/types.ts`): user-chosen name,
template key and registry category. -/
structure PackageSpec where
  name : String
  template : String
  category : String
deriving DecidableEq, Repr

/-- The dependency list handed to `updatePackageJson` for an app
(`createAppWithProcessing`, `src/lib/shared-setup.ts`): the requested packages
filtered by `appDependencyFilter`. -/
def appDependencyPackages (appTemplate : String) (packages : List PackageSpec) :
    List PackageSpec :=
  packages.filter (fun pkg => appDependencyFilter appTemplate pkg.template)

/-- ORM flavor (`OrmType` of `src/types.ts`). -/
inductive OrmType where
  | prisma
  | drizzle
  | noOrm
deriving DecidableEq, Repr

/-- Database engine choice of `OrmConfig` (`src/types.ts`). -/
inductive DbType where
  | postgresql
  | mysql
  | sqlite
deriving DecidableEq, Repr

/-- ORM configuration (`OrmConfig` of `src/types.ts`). -/
structure OrmConfig where
  type : OrmType
  database : DbType
deriving DecidableEq, Repr


/-- Attempted match of `LAST_IMPORT_REGEX` at a fixed start: given the text right
after the literal "import" plus a committed count of whitespace characters, the
lazy dotall body grows from the empty string until a semicolon, a greedy (then
backtracking) run of whitespace, a newline, and a negative lookahead for another
"import" all succeed; the returned length covers body, semicolon, whitespace and
newline. -/
def lastImportBody (afterWs : Str) : Option Nat :=
  (List.range afterWs.length).findSome? fun j =>
    match afterWs.drop j with
    | ';' :: rest2 =>
      let wsRun := (rest2.takeWhile isJsSpace).length
      ((List.range (wsRun + 1)).map (fun d => wsRun - d)).findSome? fun m =>
        match rest2.drop m with
        | '\n' :: rest3 =>
          if startsWithL "import".data rest3 then Option.none else some (j + 1 + m + 1)
        | _ => Option.none
    | _ => Option.none

/-- Attempted match of `LAST_IMPORT_REGEX` (`src/injections/orm-injection.ts`,
the dotall pattern of an import keyword, some whitespace, a lazy body up to a
semicolon, optional whitespace, a newline, and a negative lookahead for a further
import) anchored at the head of `s`: the literal "import", then the greedy
whitespace run backtracking from longest to a single character, then the lazy
body; returns the total match length. -/
def lastImportLenAt (s : Str) : Option Nat :=
  if startsWithL "import".data s then
    let rest := s.drop 6
    let wsMax := (rest.takeWhile isJsSpace).length
    ((List.range wsMax).map (fun d => wsMax - d)).findSome? fun k =>
      (lastImportBody (rest.drop k)).map (fun t => 6 + k + t)
  else Option.none

/-- Leftmost match of `LAST_IMPORT_REGEX` in `s`: start position and length. -/
def lastImportFirstMatch (s : Str) : Option (Nat × Nat) :=
  (List.range (s.length + 1)).findSome? fun i =>
    (lastImportLenAt (s.drop i)).map (fun len => (i, len))

/-- The replace `withImports.replace(LAST_IMPORT_REGEX, prefixText + "$1")` of
`addHonoOrmEndpoints`: since the whole pattern is the first capture group and the
lookahead consumes nothing, the replacement inserts `pre` immediately before the
first match; with no match the content is returned unchanged. -/
def honoLastImportReplace (s pre : Str) : Str :=
  match lastImportFirstMatch s with
  | some (i, len) => s.take i ++ pre ++ (s.drop i).take len ++ s.drop (i + len)
  | Option.none => s

/-- The anchor `AFTER_IMPORT_EXPRESS_REGEX` (`src/injections/orm-injection.ts`). -/
def corsAnchor : Str := "import cors from \"cors\";".data

/-- The anchor `EXPRESS_LISTEN_REGEX` (`src/injections/orm-injection.ts`). -/
def listenAnchor : Str := "app.listen(".data

/-- The anchor `HONO_EXPORT_REGEX` (`src/injections/orm-injection.ts`). -/
def honoExportAnchor : Str := "export default".data

/-- The import line prepended by `addExpressOrmEndpoints`, without its trailing
newline: the db import, with the `NewUser`/`users` symbols added for Drizzle. -/
def expressImportPre (orm : OrmType) (projectName : Str) : Str :=
  match orm with
  | OrmType.drizzle =>
    "import \x7b db, type NewUser, users \x7d from \"@".data ++ projectName ++ "/db\";\n".data
  | _ => "import \x7b db \x7d from \"@".data ++ projectName ++ "/db\";\n".data

/-- The injector `addExpressOrmEndpoints` of `src/injections/orm-injection.ts`:
prepend the db import (a replace of the empty pattern inserts at position 0),
append the Drizzle `eq` import after the cors import anchor when present, and
insert the route block before the first `app.listen(`. -/
def addExpressOrmEndpoints (content : Str) (orm : OrmConfig) (projectName : Str) : Str :=
  let importPre := expressImportPre orm.type projectName
  let afterCors : Str :=
    match orm.type with
    | OrmType.drizzle => "\nimport \x7b eq \x7d from \"drizzle-orm\";\n".data
    | _ => []
  let userRoutes : Str :=
    match orm.type with
    | OrmType.drizzle => expressRoutesDrizzle.data
    | _ => expressRoutesPrisma.data
  let w1 := replaceFirstSub content [] (if importPre.isEmpty then [] else importPre ++ ['\n'])
  let w2 := replaceFirstSub w1 corsAnchor (corsAnchor ++ afterCors)
  replaceFirstSub w2 listenAnchor (userRoutes ++ "\napp.listen(".data)

/-- The import lines prepended before the last import by `addHonoOrmEndpoints`. -/
def honoImportPre (orm : OrmType) (projectName : Str) : Str :=
  match orm with
  | OrmType.drizzle =>
    "import \x7b db, type NewUser, users \x7d from \"@".data ++ projectName
      ++ "/db\";\nimport \x7b eq \x7d from \"drizzle-orm\";\n".data
  | _ => "import \x7b db \x7d from \"@".data ++ projectName ++ "/db\";\n".data

/-- The injector `addHonoOrmEndpoints` of `src/injections/orm-injection.ts`: the
replace of `IMPORT_LINE_REGEX` with the identity callback leaves the content
unchanged, the db (and for Drizzle `eq`) imports are inserted before the final
block of leading imports via `LAST_IMPORT_REGEX`, and the route block is inserted
before the first `export default`. -/
def addHonoOrmEndpoints (content : Str) (orm : OrmConfig) (projectName : Str) : Str :=
  let importPre := honoImportPre orm.type projectName
  let userRoutes : Str :=
    match orm.type with
    | OrmType.drizzle => honoRoutesDrizzle.data
    | _ => honoRoutesPrisma.data
  let w1 := content
  let w2 := honoLastImportReplace w1 importPre
  replaceFirstSub w2 honoExportAnchor (userRoutes ++ "\n\nexport default".data)

/-- Project-name extraction of `addOrmEndpoints` (`src/injections/orm-injection.ts`):
split the app path on slashes, find the "apps" segment, and take the segment
before it, falling back to "project". -/
def projectNameOfPath (appPath : Str) : Str :=
  let parts := splitOnChar '/' appPath
  match parts.findIdx? (fun part => part = "apps".data) with
  | some (Nat.succ i) => parts.getD i "project".data
  | _ => "project".data

/-- The dispatcher `addOrmEndpoints` of `src/injections/orm-injection.ts`.
`indexExists` models the `access` check on `appPath/src/index.ts` and `content`
the file's text; `some newContent` models the final `writeFile`, `none` the two
early returns (missing entrypoint file, or a framework other than express/hono)
that write nothing. The function is total: no error is raised. -/
def addOrmEndpoints (indexExists : Bool) (appPath : Str) (content : Str)
    (framework : String) (orm : OrmConfig) : Option Str :=
  if indexExists then
    let projectName := projectNameOfPath appPath
    if framework = "express" then some (addExpressOrmEndpoints content orm projectName)
    else if framework = "hono" then some (addHonoOrmEndpoints content orm projectName)
    else Option.none
  else Option.none


/-! ### Generic lemmas about the string primitives -/

theorem startsWithL_iff (pat s : Str) : startsWithL pat s = true ↔ pat <+: s := by
  induction pat generalizing s with
  | nil => simp [startsWithL, List.nil_prefix]
  | cons p ps ih =>
    cases s with
    | nil => simp [startsWithL]
    | cons c cs => simp [startsWithL, List.cons_prefix_cons, ih]

theorem containsSub_iff (s pat : Str) : containsSub s pat = true ↔ pat <:+: s := by
  induction s with
  | nil => simp [containsSub, List.isEmpty_iff, List.infix_nil]
  | cons c cs ih => simp [containsSub, startsWithL_iff, ih, List.infix_cons_iff]

theorem startsWithL_drop (pat s : Str) (h : startsWithL pat s = true) :
    pat ++ s.drop pat.length = s := by
  obtain ⟨t, rfl⟩ := (startsWithL_iff pat s).mp h
  rw [List.drop_left]

theorem getLast?_mem_of_eq : ∀ {l : Str} {a : Char}, l.getLast? = some a → a ∈ l := by
  intro l
  induction l with
  | nil => intro a h; cases h
  | cons c cs ih =>
    intro a h
    cases cs with
    | nil => simp [List.getLast?] at h; simp [h]
    | cons c2 cs2 =>
      rw [List.getLast?_cons_cons] at h
      exact List.mem_cons_of_mem c (ih h)

theorem prefix_append_cases : ∀ (x pat b : Str), pat <+: x ++ b →
    pat <+: x ∨ ∃ y, pat = x ++ y ∧ y <+: b := by
  intro x
  induction x with
  | nil => intro pat b h; right; exact ⟨pat, rfl, by simpa using h⟩
  | cons c x ih =>
    intro pat b h
    cases pat with
    | nil => left; exact List.nil_prefix
    | cons p ps =>
      rw [List.cons_append, List.cons_prefix_cons] at h
      obtain ⟨rfl, h2⟩ := h
      rcases ih ps b h2 with h3 | ⟨y, rfl, hy⟩
      · left; exact List.cons_prefix_cons.mpr ⟨rfl, h3⟩
      · right; exact ⟨y, by simp, hy⟩

theorem infix_append_cases : ∀ (a b pat : Str), pat <:+: a ++ b →
    pat <:+: a ∨ pat <:+: b ∨
      ∃ x y, pat = x ++ y ∧ x ≠ [] ∧ y ≠ [] ∧ x <:+ a ∧ y <+: b := by
  intro a
  induction a with
  | nil => intro b pat h; right; left; simpa using h
  | cons c a ih =>
    intro b pat h
    rw [List.cons_append, List.infix_cons_iff] at h
    rcases h with h | h
    · rcases prefix_append_cases (c :: a) pat b h with h2 | ⟨y, rfl, hy⟩
      · left; exact h2.isInfix
      · by_cases hy0 : y = []
        · subst hy0; left; rw [List.append_nil]
        · right; right
          exact ⟨c :: a, y, rfl, by simp, hy0, List.suffix_refl _, hy⟩
    · rcases ih b pat h with h2 | h2 | ⟨x, y, rfl, hx0, hy0, hxs, hyp⟩
      · left; exact List.infix_cons_iff.mpr (Or.inr h2)
      · right; left; exact h2
      · right; right
        exact ⟨x, y, rfl, hx0, hy0, hxs.trans (List.suffix_cons c a), hyp⟩

theorem not_infix_append {pat a b : Str} {ch : Char} (ha : ¬ pat <:+: a) (hb : ¬ pat <:+: b)
    (hlast : a.getLast? = some ch) (hch : ch ∉ pat) : ¬ pat <:+: a ++ b := by
  intro h
  rcases infix_append_cases a b pat h with h2 | h2 | ⟨x, y, heq, hx0, _, hxs, _⟩
  · exact ha h2
  · exact hb h2
  · apply hch
    rw [heq]
    apply List.mem_append_left
    obtain ⟨w, rfl⟩ := hxs
    cases hxl : x.getLast? with
    | none => exact absurd (List.getLast?_eq_none_iff.mp hxl) hx0
    | some v =>
      have : (w ++ x).getLast? = some v := by
        rw [List.getLast?_append, hxl]; rfl
      rw [this] at hlast
      cases hlast
      exact getLast?_mem_of_eq hxl

theorem containsSub_false_iff (s pat : Str) : containsSub s pat = false ↔ ¬ pat <:+: s := by
  rw [← containsSub_iff]
  cases h : containsSub s pat <;> simp [h]

theorem containsSub_trans_infix {s pat q : Str} (hq : q <:+: pat) (h : containsSub s pat = true) :
    containsSub s q = true :=
  (containsSub_iff s q).mpr (hq.trans ((containsSub_iff s pat).mp h))

theorem replaceFirstSub_not_found {s pat rep : Str} (h : containsSub s pat = false) :
    replaceFirstSub s pat rep = s := by
  rw [replaceFirstSub]
  generalize s.length + 1 = fuel
  induction fuel generalizing s with
  | zero => rfl
  | succ n ih =>
    cases s with
    | nil =>
      rw [containsSub] at h
      simp [replaceFirstAux, h]
    | cons c cs =>
      rw [containsSub, Bool.or_eq_false_iff] at h
      have hpe : pat.isEmpty = false := by
        cases pat with
        | nil => cases h.1
        | cons q qs => rfl
      simp [replaceFirstAux, hpe, h.1, ih h.2]

theorem replaceFirstSub_nil_pat (s rep : Str) : replaceFirstSub s [] rep = rep ++ s := by
  cases s <;> simp [replaceFirstSub, replaceFirstAux, List.isEmpty]

theorem splitOnAux_ne_nil : ∀ (fuel : Nat) (s pat : Str), splitOnAux fuel s pat ≠ [] := by
  intro fuel
  induction fuel with
  | zero => intro s pat; simp [splitOnAux]
  | succ n ih =>
    intro s pat
    cases s with
    | nil => simp [splitOnAux]
    | cons c cs =>
      rw [splitOnAux]
      split
      · simp
      · cases hsp : splitOnAux n cs pat with
        | nil => exact absurd hsp (ih cs pat)
        | cons x xs => simp

theorem joinWith_modifyHead (sep : Str) (c : Char) :
    ∀ (l : List Str), l ≠ [] → joinWith sep (l.modifyHead (fun p => c :: p)) = c :: joinWith sep l := by
  intro l hl
  cases l with
  | nil => cases hl rfl
  | cons x xs =>
    cases xs with
    | nil => simp [joinWith, List.modifyHead_cons]
    | cons y ys => simp [joinWith, List.modifyHead_cons]

theorem splitOnAux_join :
    ∀ (fuel : Nat) (s pat : Str), pat ≠ [] → s.length < fuel →
      joinWith pat (splitOnAux fuel s pat) = s := by
  intro fuel
  induction fuel with
  | zero => intro s pat _ h; cases Nat.not_lt_zero _ h
  | succ n ih =>
    intro s pat hp hlen
    cases s with
    | nil => simp [splitOnAux, joinWith]
    | cons c cs =>
      have hpe : pat.isEmpty = false := by
        cases pat with
        | nil => cases hp rfl
        | cons q qs => rfl
      have hcs : cs.length < n := Nat.lt_of_succ_lt_succ hlen
      rw [splitOnAux]
      by_cases hsw : startsWithL pat (c :: cs) = true
      · rw [if_pos (by simp [hpe, hsw])]
        have hplen : 1 ≤ pat.length := by
          cases pat with
          | nil => cases hp rfl
          | cons q qs => exact Nat.succ_le_succ (Nat.zero_le _)
        have hlen2 : ((c :: cs).drop pat.length).length < n := by
          rw [List.length_drop]
          exact Nat.lt_of_le_of_lt (Nat.sub_le_sub_left hplen _) hcs
        have hj := ih ((c :: cs).drop pat.length) pat hp hlen2
        cases hsp : splitOnAux n ((c :: cs).drop pat.length) pat with
        | nil => exact absurd hsp (splitOnAux_ne_nil n _ pat)
        | cons x xs =>
          rw [hsp] at hj
          show joinWith pat ([] :: x :: xs) = c :: cs
          have : joinWith pat ([] :: x :: xs) = [] ++ pat ++ joinWith pat (x :: xs) := rfl
          rw [this, hj]
          simpa using startsWithL_drop pat (c :: cs) hsw
      · rw [if_neg (by simp [hpe, hsw])]
        rw [joinWith_modifyHead pat c _ (splitOnAux_ne_nil n cs pat)]
        rw [ih cs pat hp hcs]

theorem expandRep_no_dollar {m b a : Str} : ∀ {rep : Str}, '$' ∉ rep →
    expandRep m b a rep = rep := by
  intro rep
  induction rep with
  | nil => intro _; rfl
  | cons c rest ih =>
    intro h
    have hc : c ≠ '$' := fun he => h (he ▸ List.mem_cons_self c rest)
    cases rest with
    | nil => rfl
    | cons c2 rest2 =>
      have ih2 := ih (fun hm => h (List.mem_cons_of_mem _ hm))
      simp [expandRep, hc, ih2]

theorem replaceAllJsAux_not_found :
    ∀ (fuel : Nat) (s pat rep consumed : Str), containsSub s pat = false →
      replaceAllJsAux fuel s pat rep consumed = s := by
  intro fuel
  induction fuel with
  | zero => intro s pat rep consumed _; rfl
  | succ n ih =>
    intro s pat rep consumed h
    cases s with
    | nil => rfl
    | cons c cs =>
      rw [containsSub, Bool.or_eq_false_iff] at h
      rw [replaceAllJsAux, if_neg (by simp [h.1]), ih cs pat rep (consumed ++ [c]) h.2]

theorem replaceAllJs_not_found {s pat rep : Str} (h : containsSub s pat = false) :
    replaceAllJs s pat rep = s :=
  replaceAllJsAux_not_found _ s pat rep [] h

theorem replaceAllJsAux_eq_join :
    ∀ (fuel : Nat) (s pat rep consumed : Str), pat ≠ [] → '$' ∉ rep → s.length < fuel →
      replaceAllJsAux fuel s pat rep consumed = joinWith rep (splitOnAux fuel s pat) := by
  intro fuel
  induction fuel with
  | zero => intro s pat rep consumed _ _ h; cases Nat.not_lt_zero _ h
  | succ n ih =>
    intro s pat rep consumed hp hd hlen
    cases s with
    | nil => simp [splitOnAux, replaceAllJsAux, joinWith]
    | cons c cs =>
      have hpe : pat.isEmpty = false := by
        cases pat with
        | nil => cases hp rfl
        | cons q qs => rfl
      have hcs : cs.length < n := Nat.lt_of_succ_lt_succ hlen
      rw [splitOnAux, replaceAllJsAux]
      by_cases hsw : startsWithL pat (c :: cs) = true
      · rw [if_pos (by simp [hpe, hsw]), if_pos (by simp [hpe, hsw])]
        rw [expandRep_no_dollar hd]
        have hplen : 1 ≤ pat.length := by
          cases pat with
          | nil => cases hp rfl
          | cons q qs => exact Nat.succ_le_succ (Nat.zero_le _)
        have hlen2 : ((c :: cs).drop pat.length).length < n := by
          rw [List.length_drop]
          exact Nat.lt_of_le_of_lt (Nat.sub_le_sub_left hplen _) hcs
        have hj := ih ((c :: cs).drop pat.length) pat rep (consumed ++ pat) hp hd hlen2
        cases hsp : splitOnAux n ((c :: cs).drop pat.length) pat with
        | nil => exact absurd hsp (splitOnAux_ne_nil n _ pat)
        | cons x xs =>
          rw [hsp] at hj
          rw [hj]
          show rep ++ joinWith rep (x :: xs) = joinWith rep ([] :: x :: xs)
          rfl
      · rw [if_neg (by simp [hpe, hsw]), if_neg (by simp [hpe, hsw])]
        rw [joinWith_modifyHead rep c _ (splitOnAux_ne_nil n cs pat)]
        rw [ih cs pat rep (consumed ++ [c]) hp hd hcs]

theorem splitOnAux_not_found :
    ∀ (fuel : Nat) (s pat : Str), containsSub s pat = false → splitOnAux fuel s pat = [s] := by
  intro fuel
  induction fuel with
  | zero => intro s pat _; rfl
  | succ n ih =>
    intro s pat h
    cases s with
    | nil => rfl
    | cons c cs =>
      rw [containsSub, Bool.or_eq_false_iff] at h
      rw [splitOnAux, if_neg (by simp [h.1]), ih cs pat h.2]
      rfl

theorem splitOnSub_join (s pat : Str) (hp : pat ≠ []) :
    joinWith pat (splitOnSub s pat) = s :=
  splitOnAux_join _ s pat hp (Nat.lt_succ_self _)

theorem replaceAllJs_eq_join (s pat rep : Str) (hp : pat ≠ []) (hd : '$' ∉ rep) :
    replaceAllJs s pat rep = joinWith rep (splitOnSub s pat) :=
  replaceAllJsAux_eq_join _ s pat rep [] hp hd (Nat.lt_succ_self _)

theorem splitOnSub_not_found (s pat : Str) (h : containsSub s pat = false) :
    splitOnSub s pat = [s] :=
  splitOnAux_not_found _ s pat h


theorem tokenL_ne_nil (k : String) : tokenL k ≠ [] := by
  simp [tokenL]

theorem substStep_skip {content : Str} {b : Bool} {kv : String × String}
    (h : containsSub content (tokenL kv.1) = false) : substStep (content, b) kv = (content, b) := by
  simp [substStep, h]

theorem foldl_substStep_skip :
    ∀ (reps : List (String × String)) (content : Str) (b : Bool),
      (∀ kv ∈ reps, containsSub content (tokenL kv.1) = false) →
      List.foldl substStep (content, b) reps = (content, b) := by
  intro reps
  induction reps with
  | nil => intro content b _; rfl
  | cons kv rest ih =>
    intro content b h
    rw [List.foldl_cons, substStep_skip (h kv (List.mem_cons_self _ _))]
    exact ih content b (fun kv2 h2 => h kv2 (List.mem_cons_of_mem _ h2))

theorem foldl_substStep_fst :
    ∀ (reps : List (String × String)) (content : Str) (b : Bool),
      (List.foldl substStep (content, b) reps).1 =
        List.foldl (fun c kv => replaceAllJs c (tokenL kv.1) kv.2.data) content reps := by
  intro reps
  induction reps with
  | nil => intro content b; rfl
  | cons kv rest ih =>
    intro content b
    rw [List.foldl_cons, List.foldl_cons]
    by_cases hc : containsSub content (tokenL kv.1) = true
    · have hstep : substStep (content, b) kv =
          (replaceAllJs content (tokenL kv.1) kv.2.data, true) := by
        simp [substStep, hc]
      rw [hstep, ih]
    · have hc2 : containsSub content (tokenL kv.1) = false := by
        cases h : containsSub content (tokenL kv.1)
        · rfl
        · exact absurd h hc
      rw [substStep_skip hc2, ih, replaceAllJs_not_found hc2]

/-! ### Lemmas about the bracket-notation matchers -/

theorem takeWhile_all {s : Str} (h : ∀ c ∈ s, c ≠ '[') :
    (s.takeWhile (fun c => c ≠ '[') = s ∧ s.dropWhile (fun c => c ≠ '[') = []) := by
  induction s with
  | nil => exact ⟨rfl, rfl⟩
  | cons c cs ih =>
    have hc : c ≠ '[' := h c (List.mem_cons_self _ _)
    obtain ⟨ih1, ih2⟩ := ih (fun c2 h2 => h c2 (List.mem_cons_of_mem _ h2))
    have hp : (fun c => decide (c ≠ '[')) c = true := by simpa using hc
    constructor
    · rw [List.takeWhile_cons, if_pos hp, ih1]
    · rw [List.dropWhile_cons, if_pos hp, ih2]

theorem takeWhile_to_bracket {n : Str} (rest : Str) (h : ∀ c ∈ n, c ≠ '[') :
    ((n ++ '[' :: rest).takeWhile (fun c => c ≠ '[') = n ∧
      (n ++ '[' :: rest).dropWhile (fun c => c ≠ '[') = '[' :: rest) := by
  induction n with
  | nil =>
    have hp : ¬ ((fun c => decide (c ≠ '[')) '[' = true) := by simp
    constructor
    · rw [List.nil_append, List.takeWhile_cons, if_neg hp]
    · rw [List.nil_append, List.dropWhile_cons, if_neg hp]
  | cons c cs ih =>
    have hc : c ≠ '[' := h c (List.mem_cons_self _ _)
    obtain ⟨ih1, ih2⟩ := ih (fun c2 h2 => h c2 (List.mem_cons_of_mem _ h2))
    have hp : (fun c => decide (c ≠ '[')) c = true := by simpa using hc
    constructor
    · rw [List.cons_append, List.takeWhile_cons, if_pos hp, ih1]
    · rw [List.cons_append, List.dropWhile_cons, if_pos hp, ih2]

theorem mem_of_not_mem_char {s : Str} {ch : Char} (h : ch ∉ s) : ∀ c ∈ s, c ≠ ch :=
  fun _ hc he => h (he ▸ hc)

theorem appTemplateRegexMatch_no_bracket {n : Str} (hne : n ≠ []) (hnb : '[' ∉ n) :
    appTemplateRegexMatch n = some (n, Option.none) := by
  have h := takeWhile_all (mem_of_not_mem_char hnb)
  rw [appTemplateRegexMatch]
  rw [h.1, h.2]
  have : n.isEmpty = false := by
    cases n with
    | nil => cases hne rfl
    | cons c cs => rfl
  simp [this]

theorem appTemplateRegexMatch_bracket {n t : Str} (hne : n ≠ []) (hnb : '[' ∉ n)
    (hte : t ≠ []) (htb : ']' ∉ t) :
    appTemplateRegexMatch (n ++ '[' :: (t ++ [']'])) = some (n, some t) := by
  have h := takeWhile_to_bracket (t ++ [']']) (mem_of_not_mem_char hnb)
  rw [appTemplateRegexMatch]
  rw [h.1, h.2]
  have hne2 : n.isEmpty = false := by
    cases n with
    | nil => cases hne rfl
    | cons c cs => rfl
  simp [hne2, List.getLast?_concat, List.dropLast_concat, hte, htb]

theorem bracketAt_zero {t : Str} (hte : t ≠ []) (htb : ']' ∉ t) :
    bracketAt ('[' :: (t ++ [']'])) 0 = some ([], t) := by
  rw [bracketAt]
  simp [List.getLast?_concat, List.dropLast_concat, hte, htb]

theorem bracketAt_pos {t : Str} (htb : '[' ∉ t) (j : Nat) :
    bracketAt ('[' :: (t ++ [']'])) (j + 1) = Option.none := by
  rw [bracketAt]
  rw [List.drop_succ_cons]
  cases hd : (t ++ [']']).drop j with
  | nil => rfl
  | cons c r =>
    have hc : c ≠ '[' := by
      intro he
      have hmem : c ∈ t ++ [']'] := List.mem_of_mem_drop (hd ▸ List.mem_cons_self c r)
      rcases List.mem_append.mp hmem with h2 | h2
      · exact htb (he ▸ h2)
      · rw [List.mem_singleton] at h2
        rw [h2] at he
        cases he
    simp [hc]

theorem bpScan_of_pos_none {s : Str} (h0 : ∀ j, bracketAt s (j + 1) = Option.none) :
    ∀ i, bpScan s i = bracketAt s 0 := by
  intro i
  induction i with
  | zero => rfl
  | succ j ih => rw [bpScan, h0 j, ih]

theorem bracketPatternMatch_empty_name {t : Str} (hte : t ≠ []) (htb : ']' ∉ t)
    (htb2 : '[' ∉ t) :
    bracketPatternMatch ('[' :: (t ++ [']'])) = some ([], t) := by
  rw [bracketPatternMatch, bpScan_of_pos_none (fun j => bracketAt_pos htb2 j),
    bracketAt_zero hte htb]


/-! ### Lemmas about the registry search -/

theorem lookupKey_isSome_mem {α : Type} :
    ∀ (l : List (String × α)) (k : String), (lookupKey l k).isSome → k ∈ l.map Prod.fst := by
  intro l
  induction l with
  | nil => intro k h; cases h
  | cons kv rest ih =>
    intro k h
    rw [lookupKey] at h
    by_cases he : kv.1 = k
    · rw [List.map_cons, he]
      exact List.mem_cons_self _ _
    · rw [if_neg he] at h
      exact List.mem_cons_of_mem _ (ih k h)

theorem findTemplateInCats_mem_avail :
    ∀ (cats : List (String × CategoryInfo)) (tn : String) (ty : TKind) (c : String),
      findTemplateInCats cats tn ty = some c → tn ∈ availableInCats cats ty := by
  intro cats
  induction cats with
  | nil => intro tn ty c h; cases h
  | cons kc rest ih =>
    intro tn ty c h
    rw [findTemplateInCats] at h
    rw [availableInCats]
    by_cases h1 : ty = TKind.apps ∧ kc.1 = "packages"
    · rw [if_pos h1] at h
      rw [if_pos h1]
      exact ih tn ty c h
    · rw [if_neg h1] at h
      rw [if_neg h1]
      by_cases h2 : ty = TKind.packages ∧ kc.1 ≠ "packages"
      · rw [if_pos h2] at h
        rw [if_pos h2]
        exact ih tn ty c h
      · rw [if_neg h2] at h
        rw [if_neg h2]
        by_cases h3 : (lookupKey kc.2.templates tn).isSome = true
        · exact List.mem_append_left _ (lookupKey_isSome_mem _ tn h3)
        · rw [if_neg h3] at h
          exact List.mem_append_right _ (ih tn ty c h)

theorem findTemplateInCats_apps_not_packages :
    ∀ (cats : List (String × CategoryInfo)) (tn : String) (c : String),
      findTemplateInCats cats tn TKind.apps = some c → c ≠ "packages" := by
  intro cats
  induction cats with
  | nil => intro tn c h; cases h
  | cons kc rest ih =>
    intro tn c h
    rw [findTemplateInCats] at h
    by_cases h1 : TKind.apps = TKind.apps ∧ kc.1 = "packages"
    · rw [if_pos h1] at h
      exact ih tn c h
    · rw [if_neg h1] at h
      rw [if_neg (by rintro ⟨h2, _⟩; cases h2)] at h
      by_cases h3 : (lookupKey kc.2.templates tn).isSome = true
      · rw [if_pos h3] at h
        cases h
        intro he
        exact h1 ⟨rfl, he⟩
      · rw [if_neg h3] at h
        exact ih tn c h

theorem findTemplateInCats_packages_eq :
    ∀ (cats : List (String × CategoryInfo)) (tn : String) (c : String),
      findTemplateInCats cats tn TKind.packages = some c → c = "packages" := by
  intro cats
  induction cats with
  | nil => intro tn c h; cases h
  | cons kc rest ih =>
    intro tn c h
    rw [findTemplateInCats] at h
    rw [if_neg (by rintro ⟨h2, _⟩; cases h2)] at h
    by_cases h2 : TKind.packages = TKind.packages ∧ kc.1 ≠ "packages"
    · rw [if_pos h2] at h
      exact ih tn c h
    · rw [if_neg h2] at h
      by_cases h3 : (lookupKey kc.2.templates tn).isSome = true
      · rw [if_pos h3] at h
        cases h
        by_contra hne
        exact h2 ⟨rfl, hne⟩
      · rw [if_neg h3] at h
        exact ih tn c h

theorem findTemplateInConfig_none_of_not_avail {config : TemplatesConfig} {tn : String}
    {ty : TKind} (h : tn ∉ getAvailableTemplates config ty) :
    findTemplateInConfig config tn ty = Option.none := by
  rw [findTemplateInConfig]
  by_cases hb : tn = "blank"
  · exfalso
    apply h
    rw [hb, getAvailableTemplates]
    exact List.mem_append_right _ (List.mem_singleton.mpr rfl)
  · rw [if_neg hb]
    cases hf : findTemplateInCats config.categories tn ty with
    | none => rfl
    | some c =>
      exfalso
      apply h
      rw [getAvailableTemplates]
      exact List.mem_append_left _ (findTemplateInCats_mem_avail _ tn ty c hf)


/-! ### Lemmas about the ORM injector -/

theorem containsSub_trans {s a b : Str} (h1 : containsSub s a = true)
    (h2 : containsSub a b = true) : containsSub s b = true :=
  (containsSub_iff s b).mpr (((containsSub_iff a b).mp h2).trans ((containsSub_iff s a).mp h1))

theorem containsSub_of_prefix_drop {s pat : Str} {i : Nat}
    (h : startsWithL pat (s.drop i) = true) : containsSub s pat = true := by
  rw [containsSub_iff]
  obtain ⟨t, ht⟩ := (startsWithL_iff pat (s.drop i)).mp h
  obtain ⟨w, hw⟩ := List.drop_suffix i s
  exact ⟨w, t, by rw [← hw, ← ht]; simp⟩

theorem lastImportFirstMatch_none {content : Str}
    (hImp : containsSub content "import".data = false) :
    lastImportFirstMatch content = Option.none := by
  rw [lastImportFirstMatch]
  apply List.findSome?_eq_none_iff.mpr
  intro i _
  have hsw : startsWithL "import".data (content.drop i) = false := by
    cases h : startsWithL "import".data (content.drop i)
    · rfl
    · rw [containsSub_of_prefix_drop h] at hImp
      cases hImp
  rw [lastImportLenAt, if_neg (by simp [hsw])]
  rfl

theorem honoLastImportReplace_none {content pre : Str}
    (hImp : containsSub content "import".data = false) :
    honoLastImportReplace content pre = content := by
  rw [honoLastImportReplace, lastImportFirstMatch_none hImp]

theorem replaceFirst_append_noop {a content pat : Str} (rep : Str)
    (hpa : containsSub a pat = false) (hpc : containsSub content pat = false)
    (hch : a.getLast? = some '\n') (hnl : '\n' ∉ pat) :
    replaceFirstSub (a ++ content) pat rep = a ++ content := by
  apply replaceFirstSub_not_found
  rw [containsSub_false_iff] at hpa hpc ⊢
  exact not_infix_append hpa hpc hch hnl


theorem isEmpty_false {l : Str} (h : l ≠ []) : l.isEmpty = false := by
  cases l with
  | nil => cases h rfl
  | cons c cs => rfl

theorem c1_core :
    ∀ p ∈ TEMPLATES_CONFIG.categories, p.1 ≠ "packages" →
      ∀ kv ∈ p.2.templates,
        findTemplateInConfig TEMPLATES_CONFIG kv.1 TKind.apps = some p.1 ∧
        kv.1.data ≠ [] ∧ ']' ∉ kv.1.data ∧ '[' ∉ kv.1.data := by decide

/-- C1: for an app input `name[template]` whose bracket template is a registry key
visible to apps, the non-interactive `create` resolver returns the name, the
template, and the registry category that actually holds that template; and a
nonempty bracket-free input resolves to the synthetic blank template with
category "blank", never an error. -/
theorem c1_app_resolution :
    ∀ (n : Str), n ≠ [] → '[' ∉ n → ']' ∉ n →
      resolveCreateInput TEMPLATES_CONFIG TKind.apps n = Except.ok (n, "blank", "blank") ∧
      ∀ ck cat, (ck, cat) ∈ TEMPLATES_CONFIG.categories → ck ≠ "packages" →
        ∀ tk info, (tk, info) ∈ cat.templates →
          resolveCreateInput TEMPLATES_CONFIG TKind.apps (n ++ '[' :: (tk.data ++ [']'])) =
            Except.ok (n, tk, ck) := by
  intro n hne hnb _
  constructor
  · rw [resolveCreateInput, appTemplateRegexMatch_no_bracket hne hnb]
    simp [isEmpty_false hne]
  · intro ck cat hmem hckp tk info hkv
    obtain ⟨hfind, hd1, hd2, hd3⟩ := c1_core (ck, cat) hmem hckp (tk, info) hkv
    rw [resolveCreateInput, appTemplateRegexMatch_bracket hne hnb hd1 hd2]
    have hfind2 : findTemplateInConfig TEMPLATES_CONFIG ⟨tk.data⟩ TKind.apps = some ck := hfind
    simp [isEmpty_false hne, hfind2]

theorem c1_app_resolution_witness :
    resolveCreateInput TEMPLATES_CONFIG TKind.apps "web".data =
      Except.ok ("web".data, "blank", "blank") :=
  (c1_app_resolution "web".data (by decide) (by decide) (by decide)).1

/-- C2 counterexample: the input `[express]` (and `[hooks]` for packages), handed
to the non-interactive `create` resolver, is rejected as malformed rather than
resolved with name = template, because `APP_TEMPLATE_REGEX` requires a nonempty
run of non-bracket characters before the bracket. -/
theorem c2_counterexample :
    resolveCreateInput TEMPLATES_CONFIG TKind.apps "[express]".data =
      Except.error ResolveError.invalidFormat ∧
    resolveCreateInput TEMPLATES_CONFIG TKind.packages "[hooks]".data =
      Except.error ResolveError.invalidFormat := by decide

/-- C2 (amended): the `add`-command resolver `parseNameAndTemplate` accepts
`[template]` and resolves the name to the template (both trimmed); but the
`create`-command per-input resolver rejects the same input as malformed for
both kinds. -/
theorem c2_empty_name_bracket :
    ∀ (t : Str), t ≠ [] → '[' ∉ t → ']' ∉ t →
      parseNameAndTemplate ('[' :: (t ++ [']'])) = some (trimL t, some (trimL t)) ∧
      ∀ ty, resolveCreateInput TEMPLATES_CONFIG ty ('[' :: (t ++ [']'])) =
        Except.error ResolveError.invalidFormat := by
  intro t hte hbl hbr
  constructor
  · rw [parseNameAndTemplate, bracketPatternMatch_empty_name hte hbr hbl]
    simp [isEmpty_false hte]
  · intro ty
    have hm : appTemplateRegexMatch ('[' :: (t ++ [']'])) = Option.none := by
      rw [appTemplateRegexMatch]
      have hp : ¬ ((fun c => decide (c ≠ '[')) '[' = true) := by simp
      simp only [List.takeWhile_cons, if_neg hp]
      rfl
    rw [resolveCreateInput, hm]

theorem c2_empty_name_bracket_witness :
    parseNameAndTemplate "[hooks]".data = some ("hooks".data, some "hooks".data) ∧
    resolveCreateInput TEMPLATES_CONFIG TKind.packages "[hooks]".data =
      Except.error ResolveError.invalidFormat := by
  obtain ⟨h1, h2⟩ := c2_empty_name_bracket "hooks".data (by decide) (by decide) (by decide)
  exact ⟨h1, h2 TKind.packages⟩

/-- C3: a bracket template key that is not among the available templates for the
requested kind makes the `create` resolver fail with the error enumerating
exactly the available keys of that kind; the search never returns the
`packages` category for apps, and for packages never returns a category other
than `packages` (apart from the synthetic blank short-circuit). -/
theorem c3_unknown_template :
    (∀ T : String, ∀ ty, T ∉ getAvailableTemplates TEMPLATES_CONFIG ty →
      findTemplateInConfig TEMPLATES_CONFIG T ty = Option.none) ∧
    (∀ T : String, ∀ ty, ∀ n : Str, n ≠ [] → '[' ∉ n → T.data ≠ [] → ']' ∉ T.data →
      findTemplateInConfig TEMPLATES_CONFIG T ty = Option.none →
      resolveCreateInput TEMPLATES_CONFIG ty (n ++ '[' :: (T.data ++ [']'])) =
        Except.error (ResolveError.templateNotFound T
          (getAvailableTemplates TEMPLATES_CONFIG ty))) ∧
    (∀ T c, findTemplateInConfig TEMPLATES_CONFIG T TKind.apps = some c →
      c ≠ "packages") ∧
    (∀ T c, findTemplateInConfig TEMPLATES_CONFIG T TKind.packages = some c →
      c = "packages" ∨ T = "blank") := by
  refine ⟨?_, ?_, ?_, ?_⟩
  · intro T ty h
    exact findTemplateInConfig_none_of_not_avail h
  · intro T ty n hne hnb htd hrb hfind
    rw [resolveCreateInput, appTemplateRegexMatch_bracket hne hnb htd hrb]
    have hfind2 : findTemplateInConfig TEMPLATES_CONFIG ⟨T.data⟩ ty = Option.none := hfind
    simp [isEmpty_false hne, hfind2]
  · intro T c h
    rw [findTemplateInConfig] at h
    by_cases hb : T = "blank"
    · rw [if_pos hb] at h
      cases h
      decide
    · rw [if_neg hb] at h
      exact findTemplateInCats_apps_not_packages _ T c h
  · intro T c h
    rw [findTemplateInConfig] at h
    by_cases hb : T = "blank"
    · right; exact hb
    · rw [if_neg hb] at h
      left
      exact findTemplateInCats_packages_eq _ T c h

theorem c3_unknown_template_witness :
    findTemplateInConfig TEMPLATES_CONFIG "utils" TKind.apps = Option.none ∧
    resolveCreateInput TEMPLATES_CONFIG TKind.apps "api[utils]".data =
      Except.error (ResolveError.templateNotFound "utils"
        (getAvailableTemplates TEMPLATES_CONFIG TKind.apps)) := by
  have h1 := c3_unknown_template.1 "utils" TKind.apps (by decide)
  refine ⟨h1, ?_⟩
  have h2 := c3_unknown_template.2.1 "utils" TKind.apps "api".data
    (by decide) (by decide) (by decide) (by decide) h1
  exact h2

/-- C10: the key "blank" short-circuits the resolver for both kinds and every
registry, resolving to category "blank" without any search, so `name[blank]` is
accepted; and "blank" is always appended at the end of the enumerated available
template keys for either kind. -/
theorem c10_blank_special_case :
    ∀ (config : TemplatesConfig) (ty : TKind),
      findTemplateInConfig config "blank" ty = some "blank" ∧
      (∀ n : Str, n ≠ [] → '[' ∉ n →
        resolveCreateInput config ty (n ++ '[' :: ("blank".data ++ [']'])) =
          Except.ok (n, "blank", "blank")) ∧
      "blank" ∈ getAvailableTemplates config ty ∧
      (getAvailableTemplates config ty).getLast? = some "blank" := by
  intro config ty
  have hfind : findTemplateInConfig config "blank" ty = some "blank" := by
    rw [findTemplateInConfig]; simp
  refine ⟨hfind, ?_, ?_, ?_⟩
  · intro n hne hnb
    rw [resolveCreateInput, appTemplateRegexMatch_bracket hne hnb (by decide) (by decide)]
    have hfind2 : findTemplateInConfig config ⟨"blank".data⟩ ty = some "blank" := hfind
    simp [isEmpty_false hne, hfind2]
  · rw [getAvailableTemplates]
    exact List.mem_append_right _ (List.mem_singleton.mpr rfl)
  · rw [getAvailableTemplates]
    exact List.getLast?_concat _

theorem c10_blank_special_case_witness :
    findTemplateInConfig TEMPLATES_CONFIG "blank" TKind.packages = some "blank" ∧
    resolveCreateInput TEMPLATES_CONFIG TKind.packages "mylib[blank]".data =
      Except.ok ("mylib".data, "blank", "blank") := by
  obtain ⟨h1, h2, _, _⟩ := c10_blank_special_case TEMPLATES_CONFIG TKind.packages
  exact ⟨h1, h2 "mylib".data (by decide) (by decide)⟩


/-- C4 counterexample: with the replacement map sending `appName` to the value
`a$&b` (reachable, since map values are built from the user-chosen project
name), the per-file step rewrites `x\x7b\x7bappName\x7d\x7dy` to
`xa\x7b\x7bappName\x7d\x7dby`: the JavaScript replacement-pattern `$&`
re-inserts the matched token, so the written file still contains the literal
token and nowhere contains the mapped value — the occurrence is not replaced
by the mapped value. -/
theorem c4_counterexample :
    shouldProcessFile "f.md".data = true ∧
    regexLiteralKey "appName" = true ∧
    processTemplateFile [("appName", "a$&b")] "f.md".data
        "x\x7b\x7bappName\x7d\x7dy".data =
      ("xa\x7b\x7bappName\x7d\x7dby".data, true) ∧
    containsSub "xa\x7b\x7bappName\x7d\x7dby".data (tokenL "appName") = true ∧
    containsSub "xa\x7b\x7bappName\x7d\x7dby".data "a$&b".data = false := by decide

/-- C4 (amended): after the substitution walk, every visited file is processed
independently; for a replacement map whose keys are regex-literal (as the two
keys the program passes are), an allow-listed file's new content is the
in-order fold of global token replacement, each occurrence replaced by the
JavaScript substitution expansion of the mapped value — so for values free of
dollar characters each step rewrites the file as the pieces of the greedy
decomposition at the token rejoined with the mapped value itself, the
decomposition joined back with the token being exactly the old content; a
value containing dollar patterns is expanded instead of inserted verbatim.
A file none of whose tokens occur, or whose extension is not allow-listed,
is not written back and keeps its content byte for byte. -/
theorem c4_replacement_walk :
    (∀ (files : List (Str × Str)) (reps : List (String × String)),
      processTemplateReplacements files reps =
        files.map (fun pc => (pc.1, processTemplateFile reps pc.1 pc.2))) ∧
    (∀ (reps : List (String × String)) (path content : Str),
      (∀ kv ∈ reps, containsSub content (tokenL kv.1) = false) →
      processTemplateFile reps path content = (content, false)) ∧
    (∀ (reps : List (String × String)) (path content : Str),
      shouldProcessFile path = false →
      processTemplateFile reps path content = (content, false)) ∧
    (∀ (reps : List (String × String)) (path content : Str),
      shouldProcessFile path = true →
      (∀ kv ∈ reps, regexLiteralKey kv.1 = true) →
      (processTemplateFile reps path content).1 =
        reps.foldl (fun c kv => replaceAllJs c (tokenL kv.1) kv.2.data) content) ∧
    (∀ (content : Str) (k v : String), regexLiteralKey k = true → '$' ∉ v.data →
      replaceAllJs content (tokenL k) v.data =
        joinWith v.data (splitOnSub content (tokenL k)) ∧
      joinWith (tokenL k) (splitOnSub content (tokenL k)) = content) := by
  refine ⟨fun _ _ => rfl, ?_, ?_, ?_, ?_⟩
  · intro reps path content h
    rw [processTemplateFile]
    by_cases hs : shouldProcessFile path = true
    · rw [if_pos hs, substituteContent, foldl_substStep_skip reps content false h]
    · rw [if_neg hs]
  · intro reps path content h
    rw [processTemplateFile, if_neg (by simp [h])]
  · intro reps path content h _
    rw [processTemplateFile, if_pos h, substituteContent, foldl_substStep_fst]
  · intro content k v _ hd
    exact ⟨replaceAllJs_eq_join content (tokenL k) v.data (tokenL_ne_nil k) hd,
      splitOnSub_join content (tokenL k) (tokenL_ne_nil k)⟩

theorem c4_replacement_walk_witness :
    processTemplateFile [("projectName", "demo")] "README.md".data "hello".data =
      ("hello".data, false) ∧
    (processTemplateFile [("projectName", "demo")] "README.md".data
        "# \x7b\x7bprojectName\x7d\x7d".data).1 =
      List.foldl (fun c kv => replaceAllJs c (tokenL kv.1) kv.2.data)
        "# \x7b\x7bprojectName\x7d\x7d".data [("projectName", "demo")] ∧
    replaceAllJs "# \x7b\x7bprojectName\x7d\x7d".data (tokenL "projectName") "demo".data =
      joinWith "demo".data (splitOnSub "# \x7b\x7bprojectName\x7d\x7d".data
        (tokenL "projectName")) := by
  refine ⟨?_, ?_, ?_⟩
  · exact c4_replacement_walk.2.1 [("projectName", "demo")] "README.md".data "hello".data
      (by decide)
  · exact c4_replacement_walk.2.2.2.1 [("projectName", "demo")] "README.md".data
      "# \x7b\x7bprojectName\x7d\x7d".data (by decide) (by decide)
  · exact (c4_replacement_walk.2.2.2.2 "# \x7b\x7bprojectName\x7d\x7d".data
      "projectName" "demo" (by decide) (by decide)).1

/-- C5 counterexample: the file `src/distance.ts` under a template root has no
path segment equal to "dist" or "node_modules", yet the copy filter of
`copyTemplateFiles` rejects it, because the filter tests substrings of the
relative path, not path segments. -/
theorem c5_counterexample :
    copyFilter "/t".data "/t/src/distance.ts".data = false ∧
    (∀ seg ∈ splitOnChar '/' "/src/distance.ts".data,
      seg ≠ "node_modules".data ∧ seg ≠ "dist".data) := by decide

/-- C5 (amended): the copy filter of `copyTemplateFiles` skips exactly the
entries whose path relative to the template root contains "node_modules" or
"dist" as a substring; in particular every path with a slash-delimited
`node_modules` or `dist` segment is skipped, but paths merely containing those
letter runs (such as `src/distance.ts`) are skipped as well. -/
theorem c5_copy_filter_substring :
    ∀ (rel : Str),
      (copyFilterRel rel = true ↔
        containsSub rel "node_modules".data = false ∧
          containsSub rel "dist".data = false) ∧
      (∀ a b : Str, copyFilterRel (a ++ "/node_modules/".data ++ b) = false ∧
        copyFilterRel (a ++ "/dist/".data ++ b) = false) := by
  intro rel
  constructor
  · rw [copyFilterRel]
    constructor
    · intro h
      rcases Bool.and_eq_true_iff.mp h with ⟨h1, h2⟩
      exact ⟨by simpa using h1, by simpa using h2⟩
    · intro ⟨h1, h2⟩
      rw [h1, h2]
      rfl
  · intro a b
    constructor
    · have h : containsSub (a ++ "/node_modules/".data ++ b) "node_modules".data = true := by
        rw [containsSub_iff]
        refine ⟨a ++ ['/'], '/' :: b, ?_⟩
        have he : ("/node_modules/".data : Str) = '/' :: ("node_modules".data ++ ['/']) := by
          decide
        rw [he]
        simp
      rw [copyFilterRel, h]
      rfl
    · have h : containsSub (a ++ "/dist/".data ++ b) "dist".data = true := by
        rw [containsSub_iff]
        refine ⟨a ++ ['/'], '/' :: b, ?_⟩
        have he : ("/dist/".data : Str) = '/' :: ("dist".data ++ ['/']) := by decide
        rw [he]
        simp
      rw [copyFilterRel, h]
      simp

theorem c5_copy_filter_substring_witness :
    copyFilterRel "apps/web/node_modules/react".data = false ∧
    copyFilterRel "apps/api/dist/index.js".data = false := by
  have h1 := ((c5_copy_filter_substring "x".data).2 "apps/web".data "react".data).1
  have h2 := ((c5_copy_filter_substring "x".data).2 "apps/api".data "index.js".data).2
  constructor
  · have he : ("apps/web/node_modules/react".data : Str) =
        "apps/web".data ++ "/node_modules/".data ++ "react".data := by decide
    rw [he]
    exact h1
  · have he : ("apps/api/dist/index.js".data : Str) =
        "apps/api".data ++ "/dist/".data ++ "index.js".data := by decide
    rw [he]
    exact h2

/-- C6 counterexample: a requested package with template "hooks" becomes a
dependency of an app whose template "express" is not React-flavored, because
the operator precedence in the filter attaches the "hooks" test outside the
React-framework conjunction; the claimed "hooks iff React-flavored" is false. -/
theorem c6_counterexample :
    appDependencyFilter "express" "hooks" = true ∧
    "express" ∉ REACT_FRAMEWORKS ∧
    appDependencyPackages "express" [⟨"hooks", "hooks", "packages"⟩] =
      [⟨"hooks", "hooks", "packages"⟩] := by decide

/-- C6 (amended): the dependency filter includes a package exactly when it is
`ui-native`-flavored and the app is a native framework, or `ui`-flavored and the
app is React-flavored, or its template is "hooks", "utils" or "schemas" —
the latter three for every app. -/
theorem c6_dependency_filter :
    ∀ (appTemplate pkgTemplate : String),
      appDependencyFilter appTemplate pkgTemplate = true ↔
        ((appTemplate ∈ NATIVE_FRAMEWORKS ∧ pkgTemplate = "ui-native") ∨
          (appTemplate ∈ REACT_FRAMEWORKS ∧ pkgTemplate = "ui") ∨
          pkgTemplate = "hooks" ∨ pkgTemplate = "utils" ∨ pkgTemplate = "schemas") := by
  intro a p
  rw [appDependencyFilter]
  split_ifs with h1 h2 h3 <;> constructor <;> intro h <;> tauto

theorem c6_dependency_filter_witness :
    appDependencyFilter "nextjs" "ui" = true ∧ appDependencyFilter "express" "ui" = false := by
  constructor
  · exact (c6_dependency_filter "nextjs" "ui").mpr (by right; left; exact ⟨by decide, rfl⟩)
  · have h := c6_dependency_filter "express" "ui"
    cases hb : appDependencyFilter "express" "ui"
    · rfl
    · exfalso
      rcases h.mp hb with ⟨hm, _⟩ | ⟨hm, _⟩ | hp | hp | hp
      · exact absurd hm (by decide)
      · exact absurd hm (by decide)
      · exact absurd hp (by decide)
      · exact absurd hp (by decide)
      · exact absurd hp (by decide)


/-- C7 counterexample: on a file containing none of the injector anchors, the
Express ORM injection does not write the content back unchanged — the db import
is unconditionally prepended by the replace of the empty pattern. -/
theorem c7_counterexample :
    containsSub "const x = 1;\n".data "import cors from \"cors\";".data = false ∧
    containsSub "const x = 1;\n".data "app.listen(".data = false ∧
    containsSub "const x = 1;\n".data "export default".data = false ∧
    addExpressOrmEndpoints "const x = 1;\n".data ⟨OrmType.prisma, DbType.postgresql⟩
      "project".data ≠ "const x = 1;\n".data := by decide

/-- C7 (amended): on entrypoint content in which no anchor occurs (no import
text, no `export default`, no `app.listen(`), every anchored regex replace of
the ORM injector is a no-op and no error is raised: the Hono injector writes
the content back unchanged (for every project name), but the Express injector
still prepends the db import plus a blank line (shown for project name
"project"), so the Express file is not written back unchanged. -/
theorem c7_anchor_not_found :
    ∀ (content : Str) (orm : OrmConfig) (projectName : Str),
      containsSub content "import".data = false →
      containsSub content "export default".data = false →
      containsSub content "app.listen(".data = false →
      addHonoOrmEndpoints content orm projectName = content ∧
      addExpressOrmEndpoints content orm "project".data =
        expressImportPre orm.type "project".data ++ '\n' :: content := by
  intro content orm pn hImp hExp hLis
  constructor
  · simp only [addHonoOrmEndpoints]
    rw [honoLastImportReplace_none hImp]
    exact replaceFirstSub_not_found hExp
  · have hcors : containsSub content corsAnchor = false := by
      cases hc : containsSub content corsAnchor
      · rfl
      · have h2 := containsSub_trans hc
          (by decide : containsSub corsAnchor "import".data = true)
        rw [h2] at hImp
        cases hImp
    have hic : (expressImportPre orm.type "project".data).isEmpty = false ∧
        containsSub (expressImportPre orm.type "project".data ++ ['\n']) corsAnchor = false ∧
        containsSub (expressImportPre orm.type "project".data ++ ['\n']) listenAnchor = false ∧
        (expressImportPre orm.type "project".data ++ ['\n']).getLast? = some '\n' := by
      cases orm.type <;> exact ⟨by decide, by decide, by decide, by decide⟩
    obtain ⟨hie, hc1, hc2, hgl⟩ := hic
    simp only [addExpressOrmEndpoints]
    rw [if_neg (by simp [hie])]
    rw [replaceFirstSub_nil_pat]
    rw [replaceFirst_append_noop _ hc1 hcors hgl (by decide)]
    rw [replaceFirst_append_noop _ hc2 hLis hgl (by decide)]
    simp

theorem c7_anchor_not_found_witness :
    addHonoOrmEndpoints "const app = 1;\n".data ⟨OrmType.prisma, DbType.postgresql⟩
        "proj".data = "const app = 1;\n".data ∧
    addExpressOrmEndpoints "const app = 1;\n".data ⟨OrmType.prisma, DbType.postgresql⟩
        "project".data =
      expressImportPre OrmType.prisma "project".data ++ '\n' :: "const app = 1;\n".data :=
  c7_anchor_not_found "const app = 1;\n".data ⟨OrmType.prisma, DbType.postgresql⟩
    "proj".data (by decide) (by decide) (by decide)

/-- C8: with the entrypoint file absent the ORM dispatcher writes no file and
raises no error, whatever the framework; and for every framework outside
express and hono it writes no file even when the entrypoint exists. -/
theorem c8_orm_dispatcher_noop :
    ∀ (indexExists : Bool) (appPath content : Str) (framework : String) (orm : OrmConfig),
      addOrmEndpoints false appPath content framework orm = Option.none ∧
      (framework ≠ "express" → framework ≠ "hono" →
        addOrmEndpoints indexExists appPath content framework orm = Option.none) := by
  intro b appPath content fw orm
  constructor
  · rw [addOrmEndpoints]
    simp
  · intro h1 h2
    rw [addOrmEndpoints]
    cases b
    · simp
    · simp [h1, h2]

theorem c8_orm_dispatcher_noop_witness :
    addOrmEndpoints true "p/apps/web".data "x".data "nextjs"
      ⟨OrmType.prisma, DbType.postgresql⟩ = Option.none :=
  (c8_orm_dispatcher_noop true "p/apps/web".data "x".data "nextjs"
    ⟨OrmType.prisma, DbType.postgresql⟩).2 (by decide) (by decide)

set_option maxRecDepth 100000

/-- C9: ORM injection on the generated Express template entrypoint with
framework express and flavor prisma (project `myproj`) writes a file that
contains the db import from `@myproj/db` and the `/orm-test` route whose
handler returns the message `orm-test-endpoint` with orm `prisma`. -/
theorem c9_express_prisma_injection :
    (addOrmEndpoints true "myproj/apps/api".data expressIndexContent.data "express"
        ⟨OrmType.prisma, DbType.postgresql⟩).map
      (fun out =>
        containsSub out "import \x7b db \x7d from \"@myproj/db\";".data &&
        containsSub out
          "app.get(\"/orm-test\", (_req, res) => \x7b\n\tres.json(\x7b message: \"orm-test-endpoint\", orm: \"prisma\" \x7d);\n\x7d);".data) =
      some true := by decide

end CBM
